import Mathlib

/-!
Shallow embedding of `src/llvm_mode/afl-llvm-pass.so.cc` (the AFL LLVM
instrumentation pass) and proofs about it.

Filenames, whitelist entries and file contents are modelled as `List Char`
(the character sequences of the C++ `std::string` / `StringRef` values).
Machine integers are modelled as `Nat` with explicit `% 2 ^ w` where the
width matters.  The pseudo-random draws consumed by the pass are passed in
explicitly as oracle inputs.
-/

namespace AFLPass

/-- Modelled from the spec: `MAP_SIZE` is defined in `config.h`, which is not
part of the repository snapshot; the spec fixes it as `MAP_SIZE = 65536`
(a power of two, `2 ^ 16`). -/
def MAP_SIZE : Nat := 65536

/-- Modelled from the spec: the `R(x)` macro from `config.h` (not in the
snapshot) is the pass's pseudo-random source, a uniform draw in `[0, x)`
obtained by reducing a raw pseudo-random value modulo `x`.  The raw draw is
passed in explicitly. -/
def R (x rand : Nat) : Nat := rand % x

/-- Model of one round of `getline` on the remaining file contents followed by
the `while (fileStream)` loop in the `AFLCoverage` constructor (lines 60-65):
each successful `getline` extracts the characters up to (and consuming) the
next newline, and `getline` fails exactly when the stream is at end-of-file
with nothing left to extract. -/
def readLines : List Char → List (List Char)
  | [] => []
  | c :: cs =>
      (c :: cs).takeWhile (fun ch => ch ≠ '\n') ::
        readLines (((c :: cs).dropWhile (fun ch => ch ≠ '\n')).drop 1)
  termination_by cs => cs.length
  decreasing_by
    simp only [List.length_drop]
    have h := List.Sublist.length_le (List.dropWhile_sublist (l := c :: cs)
      (fun ch => ch ≠ '\n'))
    simp only [List.length_cons] at h ⊢
    omega

/-- Model of the `AFLCoverage` constructor (lines 53-67).  The outer `Option`
is whether `AFL_INST_WHITELIST` is set in the environment; the inner `Option`
is whether the named file can be opened (`none` = `ifstream` open failure).
On success the constructor leaves `myWhitelist` holding the file's lines;
`report_fatal_error` is modelled as `Except.error`. -/
def constructCoverage : Option (Option (List Char)) → Except String (List (List Char))
  | none => Except.ok []
  | some none => Except.error "Unable to open AFL_INST_WHITELIST"
  | some (some content) => Except.ok (readLines content)

/-- Model of the per-entry whitelist comparison (lines 163-168): the entry
matches when it is no longer than the resolved filename and
`instFilename.compare(instFilename.length() - it->length(), it->length(), *it) == 0`,
i.e. the tail of the filename of the entry's length equals the entry. -/
def entryMatches (instFilename entry : List Char) : Bool :=
  if entry.length ≤ instFilename.length then
    decide (instFilename.drop (instFilename.length - entry.length) = entry)
  else false

/-- Model of the whitelist iteration (lines 158-169): walk the entries in
order and stop at the first match (`break`). -/
def anyWhitelistEntryMatches (instFilename : List Char) :
    List (List Char) → Bool
  | [] => false
  | e :: rest =>
      if entryMatches instFilename e then true
      else anyWhitelistEntryMatches instFilename rest

/-- The debug metadata the pass inspects for one basic block:
`locKnown` is `!Loc.isUnknown()`, `origFilename` is `oDILoc.getFilename()`
(the original / inlined-from location), `curFilename` is
`cDILoc.getFilename()` (the immediate location). -/
structure BlockDebugInfo where
  locKnown : Bool
  origFilename : List Char
  curFilename : List Char
  deriving DecidableEq

/-- The filename-resolution chain of lines 142-157: the original location's
filename is preferred, the immediate location's filename is the fallback,
and `none` is returned when the debug location is unknown or both filenames
are empty. -/
def resolvedFilename (b : BlockDebugInfo) : Option (List Char) :=
  if b.locKnown then
    let instFilename :=
      if b.origFilename.isEmpty then b.curFilename else b.origFilename
    if instFilename.isEmpty then none else some instFilename
  else none

/-- Model of the `instrumentBlock` flag computed inside the
`if (!myWhitelist.empty())` branch (lines 137-171): it starts `false` and is
set to `true` only when the location is known, the resolved filename is
nonempty (the `resolvedFilename` chain succeeds), and some whitelist entry
matches that filename. -/
def instrumentBlockFlag (wl : List (List Char)) (b : BlockDebugInfo) : Bool :=
  match resolvedFilename b with
  | none => false
  | some instFilename => anyWhitelistEntryMatches instFilename wl

/-- Model of the whole whitelist filter (lines 136-176): with an empty
whitelist the filter is bypassed and the block proceeds; otherwise the block
proceeds exactly when `instrumentBlock` ended up `true`
(`if (!instrumentBlock) continue;`). -/
def passesWhitelistFilter (wl : List (List Char)) (b : BlockDebugInfo) : Bool :=
  if wl.isEmpty then true else instrumentBlockFlag wl b

/-- Per-block inputs of the instrumentation loop: the block's debug metadata
and the two raw pseudo-random draws it consumes, first the one reduced by
`R(100)` (line 178), then the one reduced by `R(MAP_SIZE)` (line 182). -/
structure BlockInput where
  dbg : BlockDebugInfo
  densityRand : Nat
  locRand : Nat
  deriving DecidableEq

/-- Model of the per-block decision of `runOnModule` (lines 136-182): the
whitelist filter, then the density check `if (R(100) >= inst_ratio) continue;`,
then the assignment `cur_loc = R(MAP_SIZE)`.  Returns `some cur_loc` when the
block is instrumented and `none` when it is skipped. -/
def processBlock (wl : List (List Char)) (ratio : Nat) (b : BlockInput) :
    Option Nat :=
  if passesWhitelistFilter wl b.dbg then
    if R 100 b.densityRand ≥ ratio then none
    else some (R MAP_SIZE b.locRand)
  else none

/-- Value accumulated over a run of decimal digits, folded left the way
`sscanf` accumulates `%u`. -/
def digitsToNat (ds : List Char) : Nat :=
  ds.foldl (fun acc c => acc * 10 + (c.toNat - 48)) 0

/-- Modelled from the spec: the digit-consuming core of `sscanf(s, "%u", &v)`
(the C library implementation is outside the snapshot).  It consumes the
maximal leading digit run, fails when that run is empty, and reduces the
value into the 32-bit range of `unsigned int`. -/
def scanDigits (s : List Char) : Option Nat :=
  let ds := s.takeWhile (fun c => c.isDigit)
  if ds.isEmpty then none else some (digitsToNat ds % 2 ^ 32)

/-- Modelled from the spec: `sscanf(s, "%u", &v)` (C library, outside the
snapshot).  `%u` skips leading whitespace, accepts an optional sign (a
negative value wraps modulo `2 ^ 32`), and requires at least one digit;
the result is `none` exactly when `sscanf` returns 0 (no conversion). -/
def scanU (s : List Char) : Option Nat :=
  match s.dropWhile (fun c => c.isWhitespace) with
  | '+' :: rest => scanDigits rest
  | '-' :: rest => (scanDigits rest).map (fun n => (2 ^ 32 - n) % 2 ^ 32)
  | rest => scanDigits rest

/-- Model of the `AFL_INST_RATIO` handling (lines 106-115): absent means 100;
a present value that fails to parse, parses to 0, or parses above 100 is a
`FATAL` configuration error, modelled as `Except.error`. -/
def parseRatio : Option (List Char) → Except String Nat
  | none => Except.ok 100
  | some s =>
      match scanU s with
      | none => Except.error "Bad value of AFL_INST_RATIO (must be between 1 and 100)"
      | some n =>
          if n = 0 || 100 < n then
            Except.error "Bad value of AFL_INST_RATIO (must be between 1 and 100)"
          else Except.ok n

/-- Model of `runOnModule`'s overall control flow for the claims at hand:
the ratio is parsed first and a `FATAL` there aborts before any block is
visited; otherwise every block is decided by `processBlock`. -/
def runOnModule (ratioEnv : Option (List Char)) (wl : List (List Char))
    (blocks : List BlockInput) : Except String (List (Option Nat)) :=
  match parseRatio ratioEnv with
  | Except.error e => Except.error e
  | Except.ok r => Except.ok (blocks.map (fun b => processBlock wl r b))

/-- Run-time state touched by the emitted instrumentation: the 16-bit global
`__afl_prev_loc` and the shared coverage bitmap `__afl_area_ptr` points to,
as a byte-valued map over offsets. -/
structure RTState where
  prevLoc : Nat
  bitmap : Nat → Nat

/-- Model of executing the instruction sequence inserted for one block
(lines 185-210) with compile-time constant `cur_loc`: load `__afl_prev_loc`,
zero-extend it to 64 bits, XOR it with `cur_loc` to get the bitmap offset,
increment the byte there (an `i8` add, wrapping modulo 256), and store the
`i16` constant `cur_loc >> 1` back into `__afl_prev_loc` (truncated modulo
`2 ^ 16` by the 16-bit store). -/
def execInstrumentation (cur_loc : Nat) (s : RTState) : RTState :=
  let edge := s.prevLoc ^^^ cur_loc
  { prevLoc := (cur_loc / 2) % 2 ^ 16
    bitmap := fun i => if i = edge then (s.bitmap i + 1) % 2 ^ 8 else s.bitmap i }

/-! ### Helper lemmas about the whitelist matching -/

/-- The per-entry comparison of lines 163-168 succeeds exactly when the entry
is a suffix of the resolved filename. -/
theorem entryMatches_iff_suffix (f s : List Char) :
    entryMatches f s = true ↔ s <:+ f := by
  unfold entryMatches
  split
  · rw [decide_eq_true_eq, List.suffix_iff_eq_drop, eq_comm]
  · next hle =>
    simp only [Bool.false_eq_true, false_iff]
    intro hs
    exact hle hs.length_le

/-- The whitelist loop finds a match exactly when some entry matches. -/
theorem anyWhitelistEntryMatches_iff (f : List Char) (wl : List (List Char)) :
    anyWhitelistEntryMatches f wl = true ↔ ∃ s ∈ wl, entryMatches f s = true := by
  induction wl with
  | nil => simp [anyWhitelistEntryMatches]
  | cons e rest ih =>
    by_cases he : entryMatches f e = true
    · simp [anyWhitelistEntryMatches, he]
    · simp [anyWhitelistEntryMatches, he, ih]

/-- When the filename resolution chain succeeds, the `instrumentBlock` flag
is exactly the whitelist scan over the resolved filename. -/
theorem instrumentBlockFlag_resolved (wl : List (List Char)) (b : BlockDebugInfo)
    (f : List Char) (hf : resolvedFilename b = some f) :
    instrumentBlockFlag wl b = anyWhitelistEntryMatches f wl := by
  unfold instrumentBlockFlag
  rw [hf]

/-- Under a non-empty whitelist and a resolved filename, the whole filter is
the whitelist scan over that filename. -/
theorem passesWhitelistFilter_resolved (wl : List (List Char)) (b : BlockDebugInfo)
    (f : List Char) (hwl : wl ≠ []) (hf : resolvedFilename b = some f) :
    passesWhitelistFilter wl b = anyWhitelistEntryMatches f wl := by
  have h0 : wl.isEmpty = false := by
    cases wl with
    | nil => exact absurd rfl hwl
    | cons e rest => rfl
  unfold passesWhitelistFilter
  rw [h0]
  simp only [Bool.false_eq_true, if_false]
  exact instrumentBlockFlag_resolved wl b f hf

/-! ### Claim theorems -/

/-- Claim C2 (amended: the concretely updated cell is `300 XOR 50 = 286`, not
350): executing the inserted sequence with previous-location value `p` and
compile-time constant `cur_loc` increments, wrapping modulo 256, the bitmap
byte at offset `cur_loc XOR p`, leaves every other byte unchanged, and then
stores `cur_loc >> 1` (truncated to 16 bits) into `prev_loc`; concretely a
block with `cur_loc = 300` executing after a block with `cur_loc = 100`
(which left `prev_loc = 50`) increments bitmap cell 286 and leaves
`prev_loc = 150`. -/
theorem exec_updates_xor_cell_and_halves_prev (cur_loc : Nat) (s : RTState) :
    ((execInstrumentation cur_loc s).bitmap ((cur_loc ^^^ s.prevLoc))
        = (s.bitmap ((cur_loc ^^^ s.prevLoc)) + 1) % 256
      ∧ (∀ i, i ≠ (cur_loc ^^^ s.prevLoc) →
          (execInstrumentation cur_loc s).bitmap i = s.bitmap i)
      ∧ (execInstrumentation cur_loc s).prevLoc = cur_loc / 2 % 2 ^ 16)
    ∧ (execInstrumentation 100 s).prevLoc = 50
    ∧ (execInstrumentation 300 (execInstrumentation 100 s)).bitmap 286
        = ((execInstrumentation 100 s).bitmap 286 + 1) % 256
    ∧ (execInstrumentation 300 (execInstrumentation 100 s)).prevLoc = 150 := by
  refine ⟨⟨?_, ?_, rfl⟩, rfl, ?_, rfl⟩
  · simp only [execInstrumentation]
    rw [if_pos (Nat.xor_comm cur_loc s.prevLoc)]
    norm_num
  · intro i hi
    simp only [execInstrumentation]
    rw [if_neg]
    intro hcontra
    exact hi (hcontra.trans (Nat.xor_comm s.prevLoc cur_loc))
  · simp only [execInstrumentation]
    rw [if_pos (by decide : (286 : Nat) = 100 / 2 % 2 ^ 16 ^^^ 300)]
    norm_num

/-- Claim C2, counterexample to the claim as stated: with `prev_loc = 50` a
block assigned `cur_loc = 300` leaves bitmap cell 350 untouched (the XOR
offset is 286, since `300 XOR 50 = 286`, not 350). -/
theorem exec_300_prev_50_cell_350_unchanged :
    (execInstrumentation 300 { prevLoc := 50, bitmap := fun _ => 0 }).bitmap 350 = 0
    ∧ (execInstrumentation 300 { prevLoc := 50, bitmap := fun _ => 0 }).bitmap 286 = 1 := by
  constructor <;> decide

/-- Claim C3 (amended: the cell updated on the second iteration is
`300 XOR 150 = 442`, not 450): for every `cur_loc` with
`cur_loc >> 1 ≠ cur_loc`, after one execution the self-loop edge identifier
`prev_loc XOR cur_loc` is nonzero, the second execution increments exactly
that cell, and concretely a block with `cur_loc = 300` executing twice in a
row increments bitmap cell 442 on the second iteration. -/
theorem selfLoop_second_execution (c : Nat) (s : RTState) (h : c / 2 ≠ c) :
    ((execInstrumentation c s).prevLoc ^^^ c) ≠ 0
    ∧ (execInstrumentation c (execInstrumentation c s)).bitmap
          (((execInstrumentation c s).prevLoc ^^^ c))
        = ((execInstrumentation c s).bitmap
            (((execInstrumentation c s).prevLoc ^^^ c)) + 1) % 256
    ∧ (execInstrumentation 300 (execInstrumentation 300 s)).bitmap 442
        = ((execInstrumentation 300 s).bitmap 442 + 1) % 256 := by
  refine ⟨?_, ?_, ?_⟩
  · have hne : c / 2 % 2 ^ 16 ≠ c := by
      rcases lt_or_le c (2 ^ 16) with hc | hc
      · rw [Nat.mod_eq_of_lt (lt_of_le_of_lt (Nat.div_le_self c 2) hc)]
        exact h
      · exact Nat.ne_of_lt (lt_of_lt_of_le (Nat.mod_lt _ (by norm_num)) hc)
    simp only [execInstrumentation]
    exact fun hz => hne (Nat.xor_eq_zero.mp hz)
  · simp only [execInstrumentation]
    norm_num
  · simp only [execInstrumentation]
    rw [if_pos (by decide : (442 : Nat) = 300 / 2 % 2 ^ 16 ^^^ 300)]
    norm_num

/-- Claim C3, witness: the self-loop theorem instantiated at `cur_loc = 300`
from a zeroed state. -/
theorem selfLoop_second_execution_witness :
    ((execInstrumentation 300 { prevLoc := 0, bitmap := fun _ => 0 }).prevLoc ^^^ 300) ≠ 0
    ∧ (execInstrumentation 300 (execInstrumentation 300 { prevLoc := 0, bitmap := fun _ => 0 })).bitmap
          (((execInstrumentation 300 { prevLoc := 0, bitmap := fun _ => 0 }).prevLoc ^^^ 300))
        = ((execInstrumentation 300 { prevLoc := 0, bitmap := fun _ => 0 }).bitmap
            (((execInstrumentation 300 { prevLoc := 0, bitmap := fun _ => 0 }).prevLoc ^^^ 300)) + 1) % 256
    ∧ (execInstrumentation 300 (execInstrumentation 300 { prevLoc := 0, bitmap := fun _ => 0 })).bitmap 442
        = ((execInstrumentation 300 { prevLoc := 0, bitmap := fun _ => 0 }).bitmap 442 + 1) % 256 :=
  selfLoop_second_execution 300 { prevLoc := 0, bitmap := fun _ => 0 } (by decide)

/-- Claim C3, counterexample to the claim as stated: a block with
`cur_loc = 300` executing twice from a zeroed state leaves bitmap cell 450
untouched (the second iteration's XOR offset is 442, since
`300 XOR 150 = 442`, not 450). -/
theorem selfLoop_300_cell_450_unchanged :
    (execInstrumentation 300 (execInstrumentation 300
        { prevLoc := 0, bitmap := fun _ => 0 })).bitmap 450 = 0
    ∧ (execInstrumentation 300 (execInstrumentation 300
        { prevLoc := 0, bitmap := fun _ => 0 })).bitmap 442 = 1 := by
  constructor <;> decide

/-- Claim C4: every instrumented block's compile-time `cur_loc` lies in
`[0, MAP_SIZE)`; for `cur_loc` and `prev_loc` both below
`MAP_SIZE = 2 ^ 16` (a power of two) the edge identifier
`cur_loc XOR prev_loc` is again below `MAP_SIZE`, hence a valid bitmap
offset; and the stored `prev_loc` value always fits in 16 bits. -/
theorem cur_loc_and_edge_in_range :
    (∀ (wl : List (List Char)) (r : Nat) (b : BlockInput) (n : Nat),
        processBlock wl r b = some n → n < MAP_SIZE)
    ∧ (∀ c p : Nat, c < MAP_SIZE → p < MAP_SIZE → (c ^^^ p) < MAP_SIZE)
    ∧ (∀ (c : Nat) (s : RTState), (execInstrumentation c s).prevLoc < 2 ^ 16) := by
  refine ⟨?_, ?_, ?_⟩
  · intro wl r b n hn
    unfold processBlock at hn
    split at hn
    · split at hn
      · cases hn
      · cases hn
        exact Nat.mod_lt _ (by decide)
    · cases hn
  · intro c p hc hp
    have hMS : MAP_SIZE = 2 ^ 16 := by decide
    rw [hMS] at hc hp ⊢
    exact Nat.xor_lt_two_pow hc hp
  · intro c s
    exact Nat.mod_lt _ (by decide)

/-- Claim C4, witness: the range theorem applied to a concretely admitted
block (`cur_loc = 70000 % 65536 = 4464`), to the pair `(300, 50)`, and to a
concrete execution state. -/
theorem cur_loc_and_edge_in_range_witness :
    4464 < MAP_SIZE ∧ (300 ^^^ 50) < MAP_SIZE
    ∧ (execInstrumentation 300 { prevLoc := 50, bitmap := fun _ => 0 }).prevLoc < 2 ^ 16 :=
  ⟨cur_loc_and_edge_in_range.1 [] 100 ⟨⟨true, [], []⟩, 0, 70000⟩ 4464 (by decide),
   cur_loc_and_edge_in_range.2.1 300 50 (by decide) (by decide),
   cur_loc_and_edge_in_range.2.2 300 { prevLoc := 50, bitmap := fun _ => 0 }⟩

/-- Claim C1: behaviour of the code at the claim's inputs.  Under the
non-empty whitelist `["a.c"]`, a block whose debug location is unknown, and
a block whose original and immediate filenames are both empty, are both
rejected by the filter (`instrumentBlock` stays `false`, so the
`if (!instrumentBlock) continue;` on line 175 skips them), and
`processBlock` therefore skips them before the density stage — contrary to
the claim and to the comment on lines 139-141. -/
theorem unknown_location_block_skipped :
    passesWhitelistFilter [['a', '.', 'c']] ⟨false, [], []⟩ = false
    ∧ passesWhitelistFilter [['a', '.', 'c']] ⟨true, [], []⟩ = false
    ∧ processBlock [['a', '.', 'c']] 100 ⟨⟨false, [], []⟩, 0, 0⟩ = none
    ∧ processBlock [['a', '.', 'c']] 100 ⟨⟨true, [], []⟩, 0, 0⟩ = none := by
  refine ⟨rfl, rfl, rfl, rfl⟩

/-- Claim C5: with `AFL_INST_RATIO` unset the ratio defaults to 100 with no
error, the density draw `R(100)` is always strictly below 100, and with
ratio 100 every block that passes the whitelist filter is instrumented
(assigned a `cur_loc`), never skipped by the density check. -/
theorem ratio_100_instruments_every_eligible_block :
    parseRatio none = Except.ok 100
    ∧ (∀ d : Nat, R 100 d < 100)
    ∧ (∀ (wl : List (List Char)) (b : BlockInput),
        passesWhitelistFilter wl b.dbg = true →
        processBlock wl 100 b = some (R MAP_SIZE b.locRand)) := by
  refine ⟨rfl, fun d => Nat.mod_lt _ (by decide), fun wl b hb => ?_⟩
  have hlt : R 100 b.densityRand < 100 := Nat.mod_lt _ (by decide)
  unfold processBlock
  rw [hb, if_pos rfl, if_neg (Nat.not_le.mpr hlt)]

/-- Claim C5, witness: the ratio-100 theorem applied to the empty whitelist
and a concrete block. -/
theorem ratio_100_witness :
    processBlock [] 100 ⟨⟨false, [], []⟩, 7, 70000⟩ = some (R MAP_SIZE 70000) :=
  ratio_100_instruments_every_eligible_block.2.2 []
    ⟨⟨false, [], []⟩, 7, 70000⟩ rfl

/-- Claim C6: under a non-empty whitelist, a block whose filename resolves
to `f` is eligible exactly when some whitelist entry is a plain string
suffix of `f` (no path-separator boundary check), and an entry longer than
`f` never matches. -/
theorem eligible_iff_suffix_match (wl : List (List Char)) (b : BlockDebugInfo)
    (f : List Char) (hwl : wl ≠ []) (hf : resolvedFilename b = some f) :
    (passesWhitelistFilter wl b = true ↔ ∃ s ∈ wl, s <:+ f)
    ∧ (∀ s : List Char, f.length < s.length → entryMatches f s = false) := by
  constructor
  · rw [passesWhitelistFilter_resolved wl b f hwl hf, anyWhitelistEntryMatches_iff]
    simp only [entryMatches_iff_suffix]
  · intro s hlen
    unfold entryMatches
    rw [if_neg (Nat.not_le.mpr hlen)]

/-- Claim C6, witness: whitelist entry `"oo.c"` matches the resolved
filename `"foo.c"` (suffix match without a path-separator boundary
check). -/
theorem eligible_iff_suffix_match_witness :
    passesWhitelistFilter [['o', 'o', '.', 'c']]
      ⟨true, ['f', 'o', 'o', '.', 'c'], []⟩ = true :=
  (eligible_iff_suffix_match [['o', 'o', '.', 'c']]
      ⟨true, ['f', 'o', 'o', '.', 'c'], []⟩ ['f', 'o', 'o', '.', 'c']
      (by simp) rfl).1.mpr
    ⟨['o', 'o', '.', 'c'], by simp, ⟨['f'], rfl⟩⟩

/-- Claim C7: with an empty whitelist (no `AFL_INST_WHITELIST` configured),
every block passes the filter and goes straight to the density check. -/
theorem empty_whitelist_always_eligible :
    (∀ b : BlockDebugInfo, passesWhitelistFilter [] b = true)
    ∧ (∀ (r : Nat) (b : BlockInput),
        processBlock [] r b =
          if R 100 b.densityRand ≥ r then none
          else some (R MAP_SIZE b.locRand)) := by
  refine ⟨fun b => rfl, fun r b => ?_⟩
  unfold processBlock
  rw [if_pos (show passesWhitelistFilter [] b.dbg = true from rfl)]

/-- Claim C8: an absent `AFL_INST_RATIO` defaults to 100 with no error; a
present value that does not parse as an unsigned integer, parses to 0, or
parses above 100 is a fatal configuration error, and `runOnModule` then
aborts before processing any block. -/
theorem bad_ratio_is_fatal :
    parseRatio none = Except.ok 100
    ∧ (∀ s : List Char, scanU s = none →
        parseRatio (some s)
          = Except.error "Bad value of AFL_INST_RATIO (must be between 1 and 100)")
    ∧ (∀ s : List Char, scanU s = some 0 →
        parseRatio (some s)
          = Except.error "Bad value of AFL_INST_RATIO (must be between 1 and 100)")
    ∧ (∀ (s : List Char) (n : Nat), scanU s = some n → 100 < n →
        parseRatio (some s)
          = Except.error "Bad value of AFL_INST_RATIO (must be between 1 and 100)")
    ∧ (∀ (e : String) (env : Option (List Char)) (wl : List (List Char))
          (blocks : List BlockInput), parseRatio env = Except.error e →
        runOnModule env wl blocks = Except.error e) := by
  refine ⟨rfl, ?_, ?_, ?_, ?_⟩
  · intro s hs
    simp [parseRatio, hs]
  · intro s hs
    simp [parseRatio, hs]
  · intro s n hs hn
    simp [parseRatio, hs, hn, Nat.not_eq_zero_of_lt]
  · intro e env wl blocks he
    simp [runOnModule, he]

/-- Claim C8, witness: the concrete fatal inputs `"x"` (unparsable), `"0"`,
`"101"`, and the abort of `runOnModule` under ratio `"0"`. -/
theorem bad_ratio_is_fatal_witness :
    parseRatio (some ['x'])
      = Except.error "Bad value of AFL_INST_RATIO (must be between 1 and 100)"
    ∧ parseRatio (some ['0'])
      = Except.error "Bad value of AFL_INST_RATIO (must be between 1 and 100)"
    ∧ parseRatio (some ['1', '0', '1'])
      = Except.error "Bad value of AFL_INST_RATIO (must be between 1 and 100)"
    ∧ runOnModule (some ['0']) [] []
      = Except.error "Bad value of AFL_INST_RATIO (must be between 1 and 100)" :=
  ⟨bad_ratio_is_fatal.2.1 ['x'] rfl,
   bad_ratio_is_fatal.2.2.1 ['0'] rfl,
   bad_ratio_is_fatal.2.2.2.1 ['1', '0', '1'] 101 rfl (by decide),
   bad_ratio_is_fatal.2.2.2.2 _ (some ['0']) [] [] rfl⟩

/-- Claim C9: a configured whitelist path whose file cannot be opened makes
engine construction fail fatally (`report_fatal_error`); there is no
degraded mode in which construction succeeds without the whitelist. -/
theorem unopenable_whitelist_is_fatal :
    constructCoverage (some none)
      = Except.error "Unable to open AFL_INST_WHITELIST" := rfl

/-- Unfolding equation of `readLines` on a nonempty content. -/
theorem readLines_cons (c : Char) (cs : List Char) :
    readLines (c :: cs)
      = (c :: cs).takeWhile (fun ch => ch ≠ '\n') ::
          readLines (((c :: cs).dropWhile (fun ch => ch ≠ '\n')).drop 1) := by
  rw [readLines]

/-- Splitting the line scan at the first newline of the content. -/
theorem takeWhile_dropWhile_newline (pre rest : List Char) (hp : '\n' ∉ pre) :
    (pre ++ '\n' :: rest).takeWhile (fun ch => ch ≠ '\n') = pre
    ∧ (pre ++ '\n' :: rest).dropWhile (fun ch => ch ≠ '\n') = '\n' :: rest := by
  induction pre with
  | nil =>
    rw [List.nil_append]
    refine ⟨?_, ?_⟩
    · rw [List.takeWhile_cons_of_neg (by simp)]
    · rw [List.dropWhile_cons_of_neg (by simp)]
  | cons c cs ih =>
    have hc : c ≠ '\n' := fun hcc => hp (by simp [hcc])
    have hcs : '\n' ∉ cs := fun hm => hp (List.mem_cons_of_mem _ hm)
    obtain ⟨h1, h2⟩ := ih hcs
    rw [List.cons_append]
    refine ⟨?_, ?_⟩
    · rw [List.takeWhile_cons_of_pos (by simp [hc]), h1]
    · rw [List.dropWhile_cons_of_pos (by simp [hc]), h2]

/-- `getline` reads the first (newline-terminated) line and leaves the
rest. -/
theorem readLines_append (pre rest : List Char) (hp : '\n' ∉ pre) :
    readLines (pre ++ '\n' :: rest) = pre :: readLines rest := by
  obtain ⟨h1, h2⟩ := takeWhile_dropWhile_newline pre rest hp
  cases pre with
  | nil =>
    rw [List.nil_append] at h1 h2 ⊢
    rw [readLines_cons, h1, h2]
    rfl
  | cons c cs =>
    rw [List.cons_append] at h1 h2 ⊢
    rw [readLines_cons, h1, h2]
    rfl

/-- A leading newline in the remaining content yields an empty line. -/
theorem readLines_newline_cons (rest : List Char) :
    readLines ('\n' :: rest) = [] :: readLines rest := by
  have h := readLines_append [] rest (by simp)
  simpa using h

/-- Claim C10: a whitelist file containing an empty line loads the empty
string as an entry, and since the empty entry is a suffix of every
filename, every block with a resolvable filename passes the filter
regardless of the other entries. -/
theorem empty_line_disables_filtering :
    (∀ pre post : List Char, '\n' ∉ pre →
        constructCoverage (some (some (pre ++ '\n' :: '\n' :: post)))
          = Except.ok (pre :: [] :: readLines post))
    ∧ (∀ (wl : List (List Char)) (b : BlockDebugInfo) (f : List Char),
        [] ∈ wl → resolvedFilename b = some f →
        passesWhitelistFilter wl b = true) := by
  constructor
  · intro pre post hp
    show Except.ok (readLines (pre ++ '\n' :: '\n' :: post))
      = Except.ok (pre :: [] :: readLines post)
    rw [readLines_append pre ('\n' :: post) hp, readLines_newline_cons]
  · intro wl b f hmem hf
    rw [passesWhitelistFilter_resolved wl b f (List.ne_nil_of_mem hmem) hf,
        anyWhitelistEntryMatches_iff]
    exact ⟨[], hmem, by simp [entryMatches, List.drop_length]⟩

/-- Claim C10, witness: the file contents `"a\n\nb"` load the entries
`["a", "", "b"]`, and the blank entry makes a block whose filename resolves
to `"z.c"` eligible under a whitelist that otherwise would not match it. -/
theorem empty_line_disables_filtering_witness :
    constructCoverage (some (some (['a'] ++ '\n' :: '\n' :: ['b'])))
      = Except.ok (['a'] :: [] :: readLines ['b'])
    ∧ passesWhitelistFilter [['a'], []] ⟨true, ['z', '.', 'c'], []⟩ = true :=
  ⟨empty_line_disables_filtering.1 ['a'] ['b'] (by decide),
   empty_line_disables_filtering.2 [['a'], []] ⟨true, ['z', '.', 'c'], []⟩
     ['z', '.', 'c'] (by decide) rfl⟩

end AFLPass
